import Mathlib

/-!
Verification development for the exchange-orderbook trading-engine core
(`src/exchange/src/spawn_trading_engine.rs`).

The supervisor loop, the `safely_commit_value!` macro and the bootstrap
replayer `initialize_trading_engine` are embedded from the source file.
The `trading` module (command/payload/error types and the domain
operations `do_place_order` / `do_cancel_order`) is an external
collaborator of this core and its source is not part of the repository
snapshot; those types are modelled from the spec (data model §3, error
taxonomy §7, domain collaborator interface §6) and the domain operations
are kept abstract, as the spec specifies them only by interface.

The event log store is modelled per spec §6 as an append-only list of
payloads: a successful `INSERT INTO orders_event_source (jstr) VALUES ($1)`
appends exactly one record at the end (the store assigns the next
auto-increment id, i.e. the list position); a failed insert leaves the
log unchanged and yields a database error.  Whether a given insert fails
is decided by an external `writeOracle` (store connectivity is outside
this core).
-/

namespace Exchange

/-- Modelled from the spec (§7 error taxonomy): the `trading::TradingEngineError`
type of the missing `trading` module.  `Database` is the store-failure
variant the supervisor constructs from a failed insert (`StoreFailure` in
the spec's taxonomy), `UnserializableInput` the encoding failure, and
`Domain` stands for the opaque error variants surfaced unchanged from the
domain collaborator. -/
inductive TradingEngineError (DbE DomE : Type) where
  | Database : DbE → TradingEngineError DbE DomE
  | UnserializableInput : TradingEngineError DbE DomE
  | Domain : DomE → TradingEngineError DbE DomE
  deriving DecidableEq, Repr

/-- Modelled from the spec (§3 data model): `trading::TradeCmd` — a live
`PlaceOrder` or `CancelOrder` request paired with its single-use response
channel (the channel is modelled by an identifier of type `Chan`). -/
inductive TradeCmd (PReq CReq Chan : Type) where
  | PlaceOrder : PReq → Chan → TradeCmd PReq CReq Chan
  | CancelOrder : CReq → Chan → TradeCmd PReq CReq Chan
  deriving DecidableEq, Repr

/-- Modelled from the spec (§3 data model): `trading::TradeCmdPayload` —
the persistable/replayable form of a request, identical to the live
request minus the response channel. -/
inductive TradeCmdPayload (PReq CReq : Type) where
  | PlaceOrder : PReq → TradeCmdPayload PReq CReq
  | CancelOrder : CReq → TradeCmdPayload PReq CReq
  deriving DecidableEq, Repr

/-- Modelled from the spec (§3 data model): `trading::TradingEngineCmd` —
the command union consumed by the supervisor. -/
inductive TradingEngineCmd (PReq CReq Chan : Type) where
  | Shutdown : TradingEngineCmd PReq CReq Chan
  | Trade : TradeCmd PReq CReq Chan → TradingEngineCmd PReq CReq Chan
  | Bootstrap : TradeCmdPayload PReq CReq → TradingEngineCmd PReq CReq Chan
  deriving DecidableEq, Repr

/-- The external collaborators of the core, per spec §1/§6: the
serializer (`serde_json::to_value`, one instance per request type), the
domain operations (`trading::do_place_order` / `trading::do_cancel_order`,
which mutate `EngineState` of type `S` and return a result), and the
write-failure behaviour of the log store (`writeOracle db j = some e`
means the insert of payload `j` into log `db` fails with error `e`;
`none` means it commits). -/
structure Env (S PReq CReq J R DbE DomE : Type) where
  serializePlace : PReq → Option J
  serializeCancel : CReq → Option J
  do_place_order : S → PReq → S × Except (TradingEngineError DbE DomE) R
  do_cancel_order : S → CReq → S × Except (TradingEngineError DbE DomE) R
  writeOracle : List J → J → Option DbE

variable {S PReq CReq J R DbE DomE Chan : Type}

/-- Embeds the `safely_commit_value!` macro of
`src/exchange/src/spawn_trading_engine.rs`:
`if let Ok(jstr) = serde_json::to_value(&input) { let res = $e; match INSERT(jstr) { Ok(_) => res, Err(e) => Err(Database(e)) } } else { Err(UnserializableInput) }`.
The domain expression `$e` is passed as a closure `domainOp` so that, as
in the macro expansion, it is evaluated only inside the successful-
serialization branch.  Returns the new engine state, the new log
contents, and the result delivered to the caller. -/
def safely_commit_value (writeOracle : List J → J → Option DbE)
    (serialize : Req → Option J) (input : Req)
    (domainOp : S → S × Except (TradingEngineError DbE DomE) R)
    (s : S) (db : List J) :
    S × List J × Except (TradingEngineError DbE DomE) R :=
  match serialize input with
  | some jstr =>
      let sr := domainOp s
      match writeOracle db jstr with
      | none => (sr.1, db ++ [jstr], sr.2)
      | some e => (sr.1, db, Except.error (TradingEngineError.Database e))
  | none => (s, db, Except.error TradingEngineError.UnserializableInput)

/-- Embeds the `trading_engine_supervisor` loop of
`src/exchange/src/spawn_trading_engine.rs`.  The bounded FIFO queue is
modelled as the list of commands the supervisor will receive before all
senders are dropped; `rx.recv()` returning `None` (queue closed) is the
end of the list.  The supervisor returns the final engine state, the
final log contents, and the list of `(channel, result)` responses sent,
in send order. -/
def trading_engine_supervisor (env : Env S PReq CReq J R DbE DomE) :
    List (TradingEngineCmd PReq CReq Chan) → S → List J →
    List (Chan × Except (TradingEngineError DbE DomE) R) →
    S × List J × List (Chan × Except (TradingEngineError DbE DomE) R)
  | [], s, db, out => (s, db, out)
  | cmd :: rest, s, db, out =>
    match cmd with
    | TradingEngineCmd.Shutdown => (s, db, out)
    | TradingEngineCmd.Trade (TradeCmd.PlaceOrder place_order response) =>
        let t := safely_commit_value env.writeOracle env.serializePlace
          place_order (fun a => env.do_place_order a place_order) s db
        trading_engine_supervisor env rest t.1 t.2.1 (out ++ [(response, t.2.2)])
    | TradingEngineCmd.Trade (TradeCmd.CancelOrder cancel_order response) =>
        let t := safely_commit_value env.writeOracle env.serializeCancel
          cancel_order (fun a => env.do_cancel_order a cancel_order) s db
        trading_engine_supervisor env rest t.1 t.2.1 (out ++ [(response, t.2.2)])
    | TradingEngineCmd.Bootstrap (TradeCmdPayload.PlaceOrder place_order) =>
        trading_engine_supervisor env rest (env.do_place_order s place_order).1 db out
    | TradingEngineCmd.Bootstrap (TradeCmdPayload.CancelOrder cancel_order) =>
        trading_engine_supervisor env rest (env.do_cancel_order s cancel_order).1 db out

/-- Embeds `SpawnTradingEngine::initialize_trading_engine` of
`src/exchange/src/spawn_trading_engine.rs` (the bootstrap replayer).
The store's reply to `SELECT id, jstr FROM orders_event_source` is the
input list of rows, **in the order the store returns them** — the query
has no `ORDER BY` clause, so that order is whatever the store chooses;
each row may instead be a stream error (`row?` aborts on it).  Each row's
payload is deserialized (`serde_json::from_value`); `unwrap()` on a
malformed payload panics, aborting initialization.  Returns the sequence
of payloads forwarded to the supervisor as `Bootstrap` commands, in
forwarding order, and whether initialization completed (`true`: the
sender and handle are returned to the caller; `false`: aborted). -/
def init_trading_engine (deserialize : J → Option (TradeCmdPayload PReq CReq)) :
    List (Except DbE (Nat × J)) → List (TradeCmdPayload PReq CReq) × Bool
  | [] => ([], true)
  | Except.error _ :: _ => ([], false)
  | Except.ok (_, jstr) :: rest =>
    match deserialize jstr with
    | none => ([], false)
    | some cmd =>
        let r := init_trading_engine deserialize rest
        (cmd :: r.1, r.2)

/-- The serialized form of a trade command's inner request, as
`safely_commit_value!` computes it (`serde_json::to_value(&$input)`). -/
def tradeSerialize (env : Env S PReq CReq J R DbE DomE) :
    TradeCmd PReq CReq Chan → Option J
  | TradeCmd.PlaceOrder place_order _ => env.serializePlace place_order
  | TradeCmd.CancelOrder cancel_order _ => env.serializeCancel cancel_order

/-- The domain operation a trade command designates, applied to a state:
`do_place_order` for `PlaceOrder`, `do_cancel_order` for `CancelOrder`. -/
def tradeDomainApply (env : Env S PReq CReq J R DbE DomE) :
    TradeCmd PReq CReq Chan → S → S × Except (TradingEngineError DbE DomE) R
  | TradeCmd.PlaceOrder place_order _ => fun s => env.do_place_order s place_order
  | TradeCmd.CancelOrder cancel_order _ => fun s => env.do_cancel_order s cancel_order

/-- The response channel a trade command carries. -/
def tradeChan : TradeCmd PReq CReq Chan → Chan
  | TradeCmd.PlaceOrder _ response => response
  | TradeCmd.CancelOrder _ response => response

/-- The supervisor's handling of one live trade command
(the `safely_commit_value!` invocation of the matching arm). -/
def tradeStep (env : Env S PReq CReq J R DbE DomE)
    (tc : TradeCmd PReq CReq Chan) (s : S) (db : List J) :
    S × List J × Except (TradingEngineError DbE DomE) R :=
  match tc with
  | TradeCmd.PlaceOrder place_order _ =>
      safely_commit_value env.writeOracle env.serializePlace place_order
        (fun a => env.do_place_order a place_order) s db
  | TradeCmd.CancelOrder cancel_order _ =>
      safely_commit_value env.writeOracle env.serializeCancel cancel_order
        (fun a => env.do_cancel_order a cancel_order) s db

/-- The supervisor's handling of one bootstrap payload: the domain
operation applied directly, its result discarded. -/
def bootstrapApply (env : Env S PReq CReq J R DbE DomE) :
    TradeCmdPayload PReq CReq → S → S
  | TradeCmdPayload.PlaceOrder place_order, s => (env.do_place_order s place_order).1
  | TradeCmdPayload.CancelOrder cancel_order, s => (env.do_cancel_order s cancel_order).1

/-- Whether a command is `Shutdown`. -/
def isShutdown : TradingEngineCmd PReq CReq Chan → Bool
  | TradingEngineCmd.Shutdown => true
  | _ => false

/-- Spec-level reference semantics for §8's refinement property: directly
applying the domain operations of the given trade commands to the state,
in the given order, ignoring persistence and responses. -/
def applyDomainDirect (env : Env S PReq CReq J R DbE DomE) :
    List (TradeCmd PReq CReq Chan) → S → S
  | [], s => s
  | tc :: rest, s => applyDomainDirect env rest (tradeDomainApply env tc s).1

/-- A concrete environment on naturals where every request serializes and
every insert commits, used to evaluate theorems on concrete inputs. -/
def okEnv : Env Nat Nat Nat Nat Nat Nat Nat where
  serializePlace := fun p => some p
  serializeCancel := fun c => some (c + 100)
  do_place_order := fun s p => (s + p, Except.ok p)
  do_cancel_order := fun s c => (s + 2 * c, Except.error (TradingEngineError.Domain c))
  writeOracle := fun _ _ => none

/-- A concrete environment whose log store rejects every insert with
error 7, used to evaluate the store-failure theorems. -/
def failEnv : Env Nat Nat Nat Nat Nat Nat Nat where
  serializePlace := fun p => some p
  serializeCancel := fun c => some (c + 100)
  do_place_order := fun s p => (s + p, Except.ok p)
  do_cancel_order := fun s c => (s + 2 * c, Except.ok c)
  writeOracle := fun _ _ => some 7

/-- A concrete environment in which no request serializes, used to
evaluate the serialization-failure theorems. -/
def noSerEnv : Env Nat Nat Nat Nat Nat Nat Nat where
  serializePlace := fun _ => none
  serializeCancel := fun _ => none
  do_place_order := fun s _ => (s + 1, Except.ok 0)
  do_cancel_order := fun s _ => (s + 1, Except.ok 0)
  writeOracle := fun _ _ => none

/-- A concrete deserializer: payload 0 is malformed, any other payload
decodes to a place-order payload carrying it. -/
def wDeser : Nat → Option (TradeCmdPayload Nat Nat) :=
  fun n => if n = 0 then none else some (TradeCmdPayload.PlaceOrder n)

/-- A concrete deserializer that accepts every payload. -/
def idDeser : Nat → Option (TradeCmdPayload Nat Nat) :=
  fun n => some (TradeCmdPayload.PlaceOrder n)

/-- Unfolding the supervisor loop at a live trade command: one
`safely_commit_value!` invocation, then one response send, then the loop
continues on the updated state and log. -/
theorem supervisor_trade_cons (env : Env S PReq CReq J R DbE DomE)
    (tc : TradeCmd PReq CReq Chan) (rest : List (TradingEngineCmd PReq CReq Chan))
    (s : S) (db : List J)
    (out : List (Chan × Except (TradingEngineError DbE DomE) R)) :
    trading_engine_supervisor env (TradingEngineCmd.Trade tc :: rest) s db out
      = trading_engine_supervisor env rest (tradeStep env tc s db).1
          (tradeStep env tc s db).2.1
          (out ++ [(tradeChan tc, (tradeStep env tc s db).2.2)]) := by
  cases tc <;> rfl

/-- Unfolding the supervisor loop at a bootstrap command: the domain
operation is applied directly, everything else is untouched. -/
theorem supervisor_bootstrap_cons (env : Env S PReq CReq J R DbE DomE)
    (p : TradeCmdPayload PReq CReq) (rest : List (TradingEngineCmd PReq CReq Chan))
    (s : S) (db : List J)
    (out : List (Chan × Except (TradingEngineError DbE DomE) R)) :
    trading_engine_supervisor env (TradingEngineCmd.Bootstrap p :: rest) s db out
      = trading_engine_supervisor env rest (bootstrapApply env p s) db out := by
  cases p <;> rfl

/-- When the inner request serializes to `j`, `tradeStep` applies the
domain operation and then resolves against the write oracle. -/
theorem tradeStep_of_serialize (env : Env S PReq CReq J R DbE DomE)
    (tc : TradeCmd PReq CReq Chan) (j : J) (s : S) (db : List J)
    (hser : tradeSerialize env tc = some j) :
    tradeStep env tc s db
      = match env.writeOracle db j with
        | none => ((tradeDomainApply env tc s).1, db ++ [j], (tradeDomainApply env tc s).2)
        | some e => ((tradeDomainApply env tc s).1, db,
            Except.error (TradingEngineError.Database e)) := by
  cases tc with
  | PlaceOrder po ch =>
      simp only [tradeSerialize] at hser
      simp only [tradeStep, safely_commit_value, tradeDomainApply, hser]
  | CancelOrder co ch =>
      simp only [tradeSerialize] at hser
      simp only [tradeStep, safely_commit_value, tradeDomainApply, hser]

/-- When the inner request does not serialize, `tradeStep` touches
nothing and reports `UnserializableInput`. -/
theorem tradeStep_of_no_serialize (env : Env S PReq CReq J R DbE DomE)
    (tc : TradeCmd PReq CReq Chan) (s : S) (db : List J)
    (hser : tradeSerialize env tc = none) :
    tradeStep env tc s db
      = (s, db, Except.error TradingEngineError.UnserializableInput) := by
  cases tc with
  | PlaceOrder po ch =>
      simp only [tradeSerialize] at hser
      simp only [tradeStep, safely_commit_value, hser]
  | CancelOrder co ch =>
      simp only [tradeSerialize] at hser
      simp only [tradeStep, safely_commit_value, hser]

/-- Claim C1 (divergence evidence): the bootstrap replayer forwards
records to the supervisor in whatever order the store returns them, not
necessarily in ascending id order — the replay query has no `ORDER BY`
clause.  Concretely, when the store answers `SELECT id, jstr FROM
orders_event_source` with the row of id 2 before the row of id 1 (which
an unordered query permits), the supervisor receives the payload of id 2
first, i.e. the feed is in descending id order, one command per record. -/
theorem bootstrap_feed_follows_store_order :
    init_trading_engine idDeser
        ([Except.ok (2, 20), Except.ok (1, 10)] : List (Except Nat (Nat × Nat)))
      = ([TradeCmdPayload.PlaceOrder 20, TradeCmdPayload.PlaceOrder 10], true) := by
  rfl

/-- Claim C2: for a live Trade command whose inner request serializes
successfully (here to `j`) and whose insert the store accepts, the
supervisor applies the designated domain operation to the engine state
and writes exactly one log record, containing exactly the serialized
request `j`.  The domain outcome is universally quantified, so the log
write happens regardless of whether the domain operation succeeded or
failed; the write-failure case (see the claim C5 theorem) shows the
domain mutation is present even when the write fails, i.e. the domain
operation runs before the log write. -/
theorem trade_applies_domain_then_logs_once (env : Env S PReq CReq J R DbE DomE)
    (tc : TradeCmd PReq CReq Chan) (j : J)
    (rest : List (TradingEngineCmd PReq CReq Chan)) (s : S) (db : List J)
    (out : List (Chan × Except (TradingEngineError DbE DomE) R))
    (hser : tradeSerialize env tc = some j)
    (hok : env.writeOracle db j = none) :
    trading_engine_supervisor env (TradingEngineCmd.Trade tc :: rest) s db out
      = trading_engine_supervisor env rest (tradeDomainApply env tc s).1 (db ++ [j])
          (out ++ [(tradeChan tc, (tradeDomainApply env tc s).2)]) := by
  rw [supervisor_trade_cons, tradeStep_of_serialize env tc j s db hser]
  simp only [hok]

/-- Witness for the claim C2 theorem at a concrete input. -/
theorem trade_applies_domain_then_logs_once_witness :
    trading_engine_supervisor okEnv [TradingEngineCmd.Trade (TradeCmd.PlaceOrder 5 1)]
        (0 : Nat) [] []
      = trading_engine_supervisor okEnv ([] : List (TradingEngineCmd Nat Nat Nat))
          (tradeDomainApply okEnv (TradeCmd.PlaceOrder 5 1) 0).1 ([] ++ [5])
          ([] ++ [(1, (tradeDomainApply okEnv (TradeCmd.PlaceOrder 5 1) 0).2)]) :=
  trade_applies_domain_then_logs_once okEnv (TradeCmd.PlaceOrder 5 1) 5 [] 0 [] [] rfl rfl

/-- Claim C3 (amended): for every sequence of Trade commands received
before Shutdown **whose inner requests all serialize successfully**, the
supervisor's final engine state equals directly applying the same domain
operations to the initial state in the same arrival order — no
reordering, no loss.  (Without the serializability proviso the claim
fails: a command whose request does not serialize takes the
UnserializableInput path and its domain operation is skipped — see the
counterexample theorem.) -/
theorem supervisor_refines_direct_apply (env : Env S PReq CReq J R DbE DomE)
    (cmds : List (TradeCmd PReq CReq Chan)) (s : S) (db : List J)
    (out : List (Chan × Except (TradingEngineError DbE DomE) R))
    (h : ∀ tc ∈ cmds, (tradeSerialize env tc).isSome) :
    (trading_engine_supervisor env
        (cmds.map TradingEngineCmd.Trade ++ [TradingEngineCmd.Shutdown]) s db out).1
      = applyDomainDirect env cmds s := by
  revert h
  induction cmds generalizing s db out with
  | nil => intro h; rfl
  | cons tc rest ih =>
      intro h
      obtain ⟨j, hj⟩ := Option.isSome_iff_exists.mp (h tc (List.mem_cons_self _ _))
      have hstep : (tradeStep env tc s db).1 = (tradeDomainApply env tc s).1 := by
        rw [tradeStep_of_serialize env tc j s db hj]
        cases env.writeOracle db j <;> rfl
      simp only [List.map_cons, List.cons_append, supervisor_trade_cons, hstep,
        applyDomainDirect]
      exact ih _ _ _ (fun tc' h' => h tc' (List.mem_cons_of_mem _ h'))

/-- Counterexample to claim C3 as stated: a single PlaceOrder command
whose request fails to serialize.  The supervisor leaves the state at 0
(the domain operation is skipped on the UnserializableInput path), while
direct application of the same domain operation yields 1. -/
theorem supervisor_refines_direct_apply_cex :
    ¬ ((trading_engine_supervisor noSerEnv
          ([TradeCmd.PlaceOrder 0 0].map TradingEngineCmd.Trade
            ++ [TradingEngineCmd.Shutdown]) (0 : Nat) [] []).1
        = applyDomainDirect noSerEnv [TradeCmd.PlaceOrder 0 0] 0) := by
  decide

/-- Witness for the claim C3 theorem at a concrete input: two
serializable trade commands. -/
theorem supervisor_refines_direct_apply_witness :
    (trading_engine_supervisor okEnv
        ([TradeCmd.PlaceOrder 5 1, TradeCmd.CancelOrder 3 2].map TradingEngineCmd.Trade
          ++ [TradingEngineCmd.Shutdown]) (0 : Nat) [] []).1
      = applyDomainDirect okEnv [TradeCmd.PlaceOrder 5 1, TradeCmd.CancelOrder 3 2] 0 :=
  supervisor_refines_direct_apply okEnv
    [TradeCmd.PlaceOrder 5 1, TradeCmd.CancelOrder 3 2] 0 [] [] (by decide)

/-- Claim C4: for a Trade command that serializes to `j`, the result
delivered to the caller is the store-failure error
(`TradingEngineError.Database e`) when the log write fails, overriding
any domain result; and it is exactly the domain result, unmodified, when
the log write succeeds. -/
theorem store_result_overrides_or_keeps_domain (env : Env S PReq CReq J R DbE DomE)
    (tc : TradeCmd PReq CReq Chan) (j : J) (s : S) (db : List J)
    (hser : tradeSerialize env tc = some j) :
    (tradeStep env tc s db).2.2
      = match env.writeOracle db j with
        | some e => Except.error (TradingEngineError.Database e)
        | none => (tradeDomainApply env tc s).2 := by
  rw [tradeStep_of_serialize env tc j s db hser]
  cases env.writeOracle db j <;> rfl

/-- Witness for the claim C4 theorem at a concrete input (failing
store). -/
theorem store_result_overrides_or_keeps_domain_witness :
    (tradeStep failEnv (TradeCmd.PlaceOrder 5 1) (0 : Nat) []).2.2
      = Except.error (TradingEngineError.Database 7) := by
  have h := store_result_overrides_or_keeps_domain failEnv (TradeCmd.PlaceOrder 5 1) 5 0 [] rfl
  simpa [failEnv] using h

/-- Claim C5: when the log write for a live Trade command fails after the
domain operation has run, the in-memory mutation is retained — the
resulting state is the domain-mutated state, the log is unchanged, and
the caller receives the store-failure result. -/
theorem failed_write_retains_mutation (env : Env S PReq CReq J R DbE DomE)
    (tc : TradeCmd PReq CReq Chan) (j : J) (e : DbE) (s : S) (db : List J)
    (hser : tradeSerialize env tc = some j)
    (hfail : env.writeOracle db j = some e) :
    tradeStep env tc s db
      = ((tradeDomainApply env tc s).1, db,
          Except.error (TradingEngineError.Database e)) := by
  rw [tradeStep_of_serialize env tc j s db hser, hfail]

/-- Witness for the claim C5 theorem at a concrete input. -/
theorem failed_write_retains_mutation_witness :
    tradeStep failEnv (TradeCmd.PlaceOrder 5 1) (0 : Nat) []
      = ((tradeDomainApply failEnv (TradeCmd.PlaceOrder 5 1) 0).1, [],
          Except.error (TradingEngineError.Database 7)) :=
  failed_write_retains_mutation failEnv (TradeCmd.PlaceOrder 5 1) 5 7 0 [] rfl rfl

/-- Claim C6: for a Trade command whose inner request fails to serialize,
the caller receives `UnserializableInput` and the log is unchanged — no
record is written for that command. -/
theorem unserializable_no_log_write (env : Env S PReq CReq J R DbE DomE)
    (tc : TradeCmd PReq CReq Chan) (s : S) (db : List J)
    (hser : tradeSerialize env tc = none) :
    tradeStep env tc s db
      = (s, db, Except.error TradingEngineError.UnserializableInput) :=
  tradeStep_of_no_serialize env tc s db hser

/-- Witness for the claim C6 theorem at a concrete input. -/
theorem unserializable_no_log_write_witness :
    tradeStep noSerEnv (TradeCmd.PlaceOrder 5 1) (0 : Nat) []
      = (0, [], Except.error TradingEngineError.UnserializableInput) :=
  unserializable_no_log_write noSerEnv (TradeCmd.PlaceOrder 5 1) 0 [] rfl

/-- Claim C7: a Bootstrap command applies the domain operation directly
to the engine state, discards any resulting domain error, sends no
response and writes no log record; consequently a whole replay of
bootstrap payloads folds the domain operations over the state while the
log and the response list gain nothing. -/
theorem bootstrap_applies_discards_no_log_no_response
    (env : Env S PReq CReq J R DbE DomE) :
    (∀ (p : TradeCmdPayload PReq CReq) (rest : List (TradingEngineCmd PReq CReq Chan))
        (s : S) (db : List J)
        (out : List (Chan × Except (TradingEngineError DbE DomE) R)),
        trading_engine_supervisor env (TradingEngineCmd.Bootstrap p :: rest) s db out
          = trading_engine_supervisor env rest (bootstrapApply env p s) db out)
    ∧ (∀ (ps : List (TradeCmdPayload PReq CReq)) (s : S) (db : List J)
        (out : List (Chan × Except (TradingEngineError DbE DomE) R)),
        trading_engine_supervisor env
            (ps.map (fun p =>
              (TradingEngineCmd.Bootstrap p : TradingEngineCmd PReq CReq Chan))) s db out
          = (ps.foldl (fun a p => bootstrapApply env p a) s, db, out)) := by
  constructor
  · exact fun p rest s db out => supervisor_bootstrap_cons env p rest s db out
  · intro ps
    induction ps with
    | nil => intro s db out; rfl
    | cons p rest ih =>
        intro s db out
        rw [List.map_cons, supervisor_bootstrap_cons, List.foldl_cons]
        exact ih _ _ _

/-- Claim C8: during bootstrap, a record whose payload fails to
deserialize aborts the entire initialization (the completion flag is
`false`): the malformed record is not skipped, and only the well-formed
records strictly before it were forwarded — nothing after it is. -/
theorem malformed_bootstrap_record_aborts
    (deserialize : J → Option (TradeCmdPayload PReq CReq))
    (pre : List (Nat × J)) (i : Nat) (j : J) (post : List (Except DbE (Nat × J)))
    (hpre : ∀ r ∈ pre, (deserialize r.2).isSome)
    (hbad : deserialize j = none) :
    init_trading_engine deserialize (pre.map Except.ok ++ Except.ok (i, j) :: post)
      = (pre.filterMap (fun r => deserialize r.2), false) := by
  induction pre with
  | nil => simp [init_trading_engine, hbad]
  | cons r pre' ih =>
      obtain ⟨ri, rj⟩ := r
      obtain ⟨p, hp⟩ := Option.isSome_iff_exists.mp (hpre (ri, rj) (List.mem_cons_self _ _))
      have ih' := ih (fun r' h' => hpre r' (List.mem_cons_of_mem _ h'))
      simp [List.map_cons, List.cons_append, init_trading_engine, hp,
        List.filterMap_cons, List.append_eq, ih']

/-- Witness for the claim C8 theorem at a concrete input: rows with
payloads 5 (well-formed), 0 (malformed), 7 (never reached). -/
theorem malformed_bootstrap_record_aborts_witness :
    init_trading_engine wDeser
        (([((1 : Nat), (5 : Nat))].map Except.ok
          ++ Except.ok (2, 0) :: [Except.ok (3, 7)]) : List (Except Nat (Nat × Nat)))
      = ([TradeCmdPayload.PlaceOrder 5], false) := by
  have h := malformed_bootstrap_record_aborts wDeser [(1, 5)] 2 0
    ([Except.ok (3, 7)] : List (Except Nat (Nat × Nat))) (by decide) (by rfl)
  simpa [wDeser] using h

/-- Claim C9: the supervisor loop's entire observable outcome on a queue
(the queue closing when all senders are dropped is the end of the list)
equals its outcome on the prefix of the queue before the first Shutdown:
commands after a Shutdown are never consumed, and in the absence of a
Shutdown the loop consumes the whole queue and ends exactly when the
queue closes — the embedding is a total function, so the loop then
terminates. -/
theorem supervisor_stops_on_shutdown_or_close (env : Env S PReq CReq J R DbE DomE)
    (cmds : List (TradingEngineCmd PReq CReq Chan)) (s : S) (db : List J)
    (out : List (Chan × Except (TradingEngineError DbE DomE) R)) :
    trading_engine_supervisor env cmds s db out
      = trading_engine_supervisor env (cmds.takeWhile (fun c => !isShutdown c)) s db out := by
  induction cmds generalizing s db out with
  | nil => rfl
  | cons c rest ih =>
      cases c with
      | Shutdown => rfl
      | Trade tc =>
          rw [show (TradingEngineCmd.Trade tc :: rest).takeWhile (fun c => !isShutdown c)
              = TradingEngineCmd.Trade tc :: rest.takeWhile (fun c => !isShutdown c) from rfl]
          rw [supervisor_trade_cons, supervisor_trade_cons]
          exact ih _ _ _
      | Bootstrap p =>
          rw [show (TradingEngineCmd.Bootstrap p :: rest).takeWhile (fun c => !isShutdown c)
              = TradingEngineCmd.Bootstrap p :: rest.takeWhile (fun c => !isShutdown c) from rfl]
          rw [supervisor_bootstrap_cons, supervisor_bootstrap_cons]
          exact ih _ _ _

/-- Claim C10: for a Trade command whose inner request fails to
serialize, `safely_commit_value!` returns with the state and log
untouched, and its outcome does not depend on the domain operation at
all (the operation is never invoked) — error atomicity on serialization
failure. -/
theorem serialization_failure_skips_domain {Req : Type}
    (writeOracle : List J → J → Option DbE) (serialize : Req → Option J)
    (input : Req) (s : S) (db : List J)
    (f g : S → S × Except (TradingEngineError DbE DomE) R)
    (hser : serialize input = none) :
    safely_commit_value writeOracle serialize input f s db
        = (s, db, Except.error TradingEngineError.UnserializableInput)
      ∧ safely_commit_value writeOracle serialize input f s db
        = safely_commit_value writeOracle serialize input g s db := by
  constructor <;> simp only [safely_commit_value, hser]

/-- Witness for the claim C10 theorem at a concrete input, with two
visibly different domain operations. -/
theorem serialization_failure_skips_domain_witness :
    safely_commit_value noSerEnv.writeOracle noSerEnv.serializePlace 5
        (fun a => ((a + 1, Except.ok 0) : Nat × Except (TradingEngineError Nat Nat) Nat))
        (0 : Nat) []
        = (0, [], Except.error TradingEngineError.UnserializableInput)
      ∧ safely_commit_value noSerEnv.writeOracle noSerEnv.serializePlace 5
          (fun a => ((a + 1, Except.ok 0) : Nat × Except (TradingEngineError Nat Nat) Nat))
          (0 : Nat) []
        = safely_commit_value noSerEnv.writeOracle noSerEnv.serializePlace 5
            (fun a => (a + 99, Except.error (TradingEngineError.Domain 3))) 0 [] :=
  serialization_failure_skips_domain noSerEnv.writeOracle noSerEnv.serializePlace 5 0 []
    (fun a => (a + 1, Except.ok 0))
    (fun a => (a + 99, Except.error (TradingEngineError.Domain 3))) rfl

end Exchange
